import Mathlib

/-!
Verification of the skiplist heap allocator in `src/os/mem_mgr/alloc.cpp`.

The allocator manages a contiguous SRAM arena in place.  We model memory as a
total map from byte addresses to machine words (`size_t` on the 32-bit target,
so `ALIGNMENT = 4` and `MALLOC_HEADER_SIZE = 2 * 4 = 8`); every access the
code performs is 4-byte aligned and word-sized, so word-granular aliasing is
exact.  Pointers are plain addresses (`Nat`), with `0` playing the role of
`nullptr`.  The four list heads `Skiplist::heads[0..3]` live in memory at
addresses `H, H+4, H+8, H+12`, mirroring the static `free_list_start` object
(`offsetof` arithmetic in `Skiplist::free` then works out exactly as in the
C++: the word just below `heads[0]` is `total_free`).

A `free_entry` at address `p` has its `size` word at `p` and `next[i]` at
`p + 4 + 4*i` (`offsetof(free_entry, next) = 4`).  Stack-allocated
`free_entry` temporaries are modelled by the structure `FreeEntry`; the slots
the copy constructor leaves uninitialised keep whatever the caller-supplied
`junk` value holds, mirroring indeterminate stack memory.

C `while` loops over the free lists are given explicit fuel; running out of
fuel yields `none`, which is distinct from the C++ function returning
`nullptr` (modelled as `some` of address `0`).
-/

/-- A word-addressable memory: total map from byte address to word value. -/
structure Heap where
  mem : Nat → Nat

/-- Read the word at address `a`. -/
def rd (h : Heap) (a : Nat) : Nat := h.mem a

/-- Write value `v` at address `a`. -/
def wr (h : Heap) (a v : Nat) : Heap := ⟨fun x => if x = a then v else h.mem x⟩

/-- `NUM_FREE_LISTS` from the source. -/
def NUM_FREE_LISTS : Nat := 4

/-- `MIN_ALLOC_SIZE` from the source. -/
def MIN_ALLOC_SIZE : Nat := 8

/-- `MALLOC_HEADER_SIZE = 2 * sizeof(size_t)` on the 32-bit target. -/
def MALLOC_HEADER_SIZE : Nat := 8

/-- `ALIGNMENT = sizeof(size_t)`. -/
def ALIGNMENT : Nat := 4

/-- 32-bit unsigned subtraction (`size_t` / pointer arithmetic wraps mod 2^32). -/
def usub (a b : Nat) : Nat := if b ≤ a then a - b else a + 4294967296 - b

/-- `ROUND_UP_TO_ALIGN(size) = (((size) - 1u) & ~ALIGNMENT_MASK) + ALIGNMENT`:
clearing the low two bits of `size - 1` rounds down to a multiple of 4. -/
def ROUND_UP_TO_ALIGN (size : Nat) : Nat := (usub size 1) / 4 * 4 + ALIGNMENT

/-- `UNALIGNED(p) = ((uintptr_t)p) & ALIGNMENT_MASK`, as a `Bool`. -/
def UNALIGNED (p : Nat) : Bool := p % 4 ≠ 0

/-- `which_skiplist_by_size`: the size → level classifier. -/
def which_skiplist_by_size (size : Nat) : Nat :=
  if 1024 ≤ size then 3
  else if 64 ≤ size then 2
  else if 16 ≤ size then 1
  else 0

/-- A stack-resident `free_entry` value (`size` plus the four `next` slots). -/
structure FreeEntry where
  size : Nat
  n0 : Nat
  n1 : Nat
  n2 : Nat
  n3 : Nat

/-- `fe.next[i]` of a stack temporary. Indices above 3 never occur. -/
def FreeEntry.getNext (fe : FreeEntry) : Nat → Nat
  | 0 => fe.n0
  | 1 => fe.n1
  | 2 => fe.n2
  | 3 => fe.n3
  | _ + 4 => 0

/-- `fe.next[i] = v` on a stack temporary. -/
def FreeEntry.setNext (fe : FreeEntry) : Nat → Nat → FreeEntry
  | 0, v => { fe with n0 := v }
  | 1, v => { fe with n1 := v }
  | 2, v => { fe with n2 := v }
  | 3, v => { fe with n3 := v }
  | _ + 4, _ => fe

/-- `fe.skiplist()` for a stack temporary. -/
def FreeEntry.skiplist (fe : FreeEntry) : Nat := which_skiplist_by_size fe.size

/-- The `free_entry` header words found in memory at address `p`, as a value.
Only the slots below the entry's level are meaningful; the reader decides
which ones to use, exactly as the C++ does. -/
def entryAt (h : Heap) (p : Nat) : FreeEntry :=
  ⟨rd h p, rd h (p + 4), rd h (p + 8), rd h (p + 12), rd h (p + 16)⟩

/-- The copy loop of `free_entry::copy_from`: copies `next[i]` for
`i = 0 .. count-1` from `src` into the destination. -/
def copyNexts (src : FreeEntry) : Nat → Nat → FreeEntry → FreeEntry
  | 0, _, d => d
  | n + 1, i, d => copyNexts src n (i + 1) (d.setNext i (src.getNext i))

/-- `free_entry::copy_from(fe)`: `size = fe.size;` then
`for (i = 0; i < fe.skiplist(); i++) next[i] = fe.next[i];` — note the
strict `<`: the slot at index `fe.skiplist()` itself is not copied. -/
def copy_from (dest src : FreeEntry) : FreeEntry :=
  copyNexts src src.skiplist 0 { dest with size := src.size }

/-- `free_entry temp(*(lw.curr_block))`: the copy constructor applied to the
in-memory entry at `p`.  `junk` stands for the indeterminate prior contents
of the stack slot. -/
def tempOf (h : Heap) (p : Nat) (junk : FreeEntry) : FreeEntry :=
  copy_from junk (entryAt h p)

/-- The walker's `list_links`: each slot holds the address of a word that
contains a `free_entry*` (either `&heads[i]` or `&entry->next[i]`). -/
structure Links where
  l0 : Nat
  l1 : Nat
  l2 : Nat
  l3 : Nat

/-- `links.lists[i]`. -/
def Links.get : Links → Nat → Nat
  | L, 0 => L.l0
  | L, 1 => L.l1
  | L, 2 => L.l2
  | L, 3 => L.l3
  | _, _ + 4 => 0

/-- `links.lists[i] = v`. -/
def Links.set : Links → Nat → Nat → Links
  | L, 0, v => { L with l0 := v }
  | L, 1, v => { L with l1 := v }
  | L, 2, v => { L with l2 := v }
  | L, 3, v => { L with l3 := v }
  | L, _ + 4, _ => L

/-- `Skiplist::list_walker`. -/
structure Walker where
  skiplist_num : Nat
  curr : Nat
  links : Links

/-- `Skiplist::get_walker`: `curr = heads[skip_list]`,
`links.lists[i] = &heads[i]` (the heads array lives at `H`). -/
def getWalker (h : Heap) (H skip_list : Nat) : Walker :=
  ⟨skip_list, rd h (H + 4 * skip_list), ⟨H, H + 4, H + 8, H + 12⟩⟩

/-- `list_walker::advance_links`: for each level, if `*links[i] < curr`
(note: `if`, not `while`) advance `links[i]` to `&(*links[i])->next[i]`. -/
def advance_links (h : Heap) (w : Walker) : Walker :=
  { w with
    links := (List.range 4).foldl (fun L i =>
      if rd h (L.get i) < w.curr then L.set i (rd h (L.get i) + 4 + 4 * i) else L) w.links }

/-- `list_walker::move_next`: `curr = curr->next[skiplist_num]; advance_links();`. -/
def move_next (h : Heap) (w : Walker) : Walker :=
  advance_links h { w with curr := rd h (w.curr + 4 + 4 * w.skiplist_num) }

/-- Run `body` on indices `i0, i0+1, ..., i0+n-1` over the heap. -/
def goR (body : Nat → Heap → Heap) : Nat → Nat → Heap → Heap
  | 0, _, h => h
  | n + 1, i, h => goR body n (i + 1) (body i h)

/-- `for (i = a; i <= b; i++) body;` with bounds evaluated once. -/
def forRange (a b : Nat) (body : Nat → Heap → Heap) (h : Heap) : Heap :=
  goR body (b + 1 - a) a h

/-- A `for` loop whose guard re-reads mutable state each iteration (used where
the C++ bound is a method call on a heap object).  The index list is always
`[0,1,2,3]` in practice since levels never exceed 3. -/
def forWhile : List Nat → (Nat → Heap → Bool) → (Nat → Heap → Heap) → Heap → Heap
  | [], _, _, h => h
  | i :: rest, cond, body, h =>
    if cond i h then forWhile rest cond body (body i h) else h

/-- `Skiplist::insert_and_coalesce_with_current(lw, entry, size)`: absorb the
free block `curr` into the new entry that ends exactly where `curr` begins. -/
def insert_and_coalesce_with_current (h : Heap) (w : Walker) (entry size : Nat) :
    Heap × Walker :=
  let h := wr h entry (size + rd h w.curr)
  let curr_block_skiplist := which_skiplist_by_size (rd h w.curr)
  let new_skiplist := which_skiplist_by_size (rd h entry)
  let h := forRange 0 curr_block_skiplist (fun i h =>
    let h := wr h (entry + 4 + 4 * i) (rd h (w.curr + 4 + 4 * i))
    wr h (w.links.get i) entry) h
  let h := forRange (curr_block_skiplist + 1) new_skiplist (fun i h =>
    let h := wr h (entry + 4 + 4 * i) (rd h (w.links.get i))
    wr h (w.links.get i) entry) h
  (h, { w with curr := entry })

/-- `Skiplist::expand_entry(lw, entry, expand_amt)`. -/
def expand_entry (h : Heap) (w : Walker) (entry expand_amt : Nat) : Heap :=
  let old_skiplist := which_skiplist_by_size (rd h entry)
  let h := wr h entry (rd h entry + expand_amt)
  let new_skiplist := which_skiplist_by_size (rd h entry)
  forRange (old_skiplist + 1) new_skiplist (fun i h =>
    let h := wr h (entry + 4 + 4 * i) (rd h (w.links.get i))
    wr h (w.links.get i) entry) h

/-- `Skiplist::insert_new_block(lw, new_block, size)`.  The loop bound
`new_block.skiplist()` is re-evaluated from memory on every iteration. -/
def insert_new_block (h : Heap) (w : Walker) (new_block size : Nat) : Heap :=
  let h := wr h new_block size
  forWhile [0, 1, 2, 3]
    (fun i h => decide (i ≤ which_skiplist_by_size (rd h new_block)))
    (fun i h =>
      let h := wr h (new_block + 4 + 4 * i) (rd h (w.links.get i))
      wr h (w.links.get i) new_block) h

/-- `Skiplist::allocate_entire_block(lw)`: unlink `curr` from every list it
occupies by redirecting each trailing link slot to `curr->next[i]`. -/
def allocate_entire_block (h : Heap) (w : Walker) : Heap :=
  forWhile [0, 1, 2, 3]
    (fun i h => decide (i ≤ which_skiplist_by_size (rd h w.curr)))
    (fun i h => wr h (w.links.get i) (rd h (w.curr + 4 + 4 * i))) h

/-- The write-back part of `free_entry::copy_from` when the destination lives
in memory (only reached from `copy_and_resize` when `new_size == src.size`). -/
def copyFromHeap (h : Heap) (dest : Nat) (src : FreeEntry) : Heap :=
  let h := wr h dest src.size
  goR (fun i h => wr h (dest + 4 + 4 * i) (src.getNext i)) src.skiplist 0 h

/-- `Skiplist::copy_and_resize(lw, dest, src, new_size)`: write a free header
of size `new_size` at `dest`, carrying pointers over from the snapshot `src`
and splicing `dest` into the lists through the walker's links. -/
def copy_and_resize (h : Heap) (w : Walker) (dest : Nat) (src : FreeEntry)
    (new_size : Nat) : Heap :=
  if new_size = src.size then copyFromHeap h dest src
  else if src.size < new_size then
    forRange (src.skiplist + 1)
      (which_skiplist_by_size (rd (wr h dest new_size) dest))
      (fun i h =>
        wr (wr h (dest + 4 + 4 * i) (rd h (w.links.get i))) (w.links.get i) dest)
      (forRange 0 src.skiplist
        (fun i h =>
          wr (wr h (dest + 4 + 4 * i) (src.getNext i)) (w.links.get i) dest)
        (wr h dest new_size))
  else
    forRange (which_skiplist_by_size (rd (wr h dest new_size) dest) + 1)
      src.skiplist
      (fun i h => wr h (w.links.get i) (src.getNext i))
      (forRange 0 (which_skiplist_by_size (rd (wr h dest new_size) dest))
        (fun i h =>
          wr (wr h (dest + 4 + 4 * i) (src.getNext i)) (w.links.get i) dest)
        (wr h dest new_size))

/-- `Skiplist::allocate_current(lw, size)`: consume the whole of `curr` when
the leftover would be below `MIN_ALLOC_SIZE`, otherwise split off the tail
as a new smaller free block at `curr + size`.  Returns `curr`. -/
def allocate_current (h : Heap) (w : Walker) (size : Nat) (junk : FreeEntry) :
    Nat × Heap :=
  if rd h w.curr < size + MIN_ALLOC_SIZE then
    (w.curr, allocate_entire_block h w)
  else
    let temp_entry := tempOf h w.curr junk
    let new_entry := w.curr + size
    (w.curr, copy_and_resize h w new_entry temp_entry (usub temp_entry.size size))

/-- `Skiplist::resize_allocated_block(lw, allocated_block, old_size, new_size)`. -/
def resize_allocated_block (h : Heap) (w : Walker)
    (allocated_block old_size new_size : Nat) (junk : FreeEntry) : Heap × Walker :=
  if allocated_block + old_size ≠ w.curr then (h, w)
  else if new_size < old_size then
    let size_diff := old_size - new_size
    let temp := tempOf h w.curr junk
    let new_block := usub w.curr size_diff
    let h := copy_and_resize h w new_block temp (usub temp.size size_diff)
    (h, { w with curr := new_block })
  else
    let size_diff := new_size - old_size
    if usub (rd h w.curr) size_diff < MIN_ALLOC_SIZE then
      (allocate_entire_block h w, w)
    else
      let temp := tempOf h w.curr junk
      let new_block := w.curr + size_diff
      let h := copy_and_resize h w new_block temp (usub temp.size size_diff)
      (h, { w with curr := new_block })

/-- The `while (lw.curr_block) { if (fits) ...; move_next(); }` loop of
`Skiplist::malloc`, with fuel. -/
def mallocLoop (size : Nat) (junk : FreeEntry) (h : Heap) :
    Nat → Walker → Option (Nat × Heap)
  | 0, _ => none
  | fuel + 1, w =>
    if w.curr = 0 then some (0, h)
    else if size ≤ rd h w.curr then some (allocate_current h w size junk)
    else mallocLoop size junk h fuel (move_next h w)

/-- `Skiplist::malloc(size)`. -/
def SLmalloc (h : Heap) (H size fuel : Nat) (junk : FreeEntry) :
    Option (Nat × Heap) :=
  mallocLoop size junk h fuel (getWalker h H (which_skiplist_by_size size))

/-- The `while (lw.curr_block && (lw.curr_block <= p)) move_next();` loop
shared by `Skiplist::free` and `Skiplist::resize`, with fuel. -/
def walkPast (h : Heap) (p : Nat) : Nat → Walker → Option Walker
  | 0, w => if w.curr ≠ 0 ∧ w.curr ≤ p then none else some w
  | fuel + 1, w =>
    if w.curr ≠ 0 ∧ w.curr ≤ p then walkPast h p fuel (move_next h w)
    else some w

/-- `Skiplist::free(size, pointer_to_free)`. -/
def SLfree (h : Heap) (H size p fuel : Nat) : Option Heap :=
  match walkPast h p fuel (getWalker h H 0) with
  | none => none
  | some w =>
    let prev := usub (w.links.get 0) 4
    if w.curr ≠ 0 then
      if prev + rd h prev = p then
        if p + size = w.curr then
          let prev_skip_list := which_skiplist_by_size (rd h prev)
          let h := wr h prev (rd h prev + size)
          let h := wr h prev (rd h prev + rd h w.curr)
          let curr_block_skip_list := which_skiplist_by_size (rd h w.curr)
          let new_skip_list := which_skiplist_by_size (rd h prev)
          let h := forRange 0 curr_block_skip_list (fun i h =>
            wr h (prev + 4 + 4 * i) (rd h (w.curr + 4 + 4 * i))) h
          let h := forRange (curr_block_skip_list + 1) new_skip_list (fun i h =>
            wr h (prev + 4 + 4 * i) (rd h (w.links.get i))) h
          let h := forRange (prev_skip_list + 1) new_skip_list (fun i h =>
            wr h (w.links.get i) prev) h
          some h
        else some (expand_entry h w prev size)
      else
        if p + size = w.curr then
          some (insert_and_coalesce_with_current h w p size).1
        else some (insert_new_block h w p size)
    else
      if prev + size = p then some (expand_entry h w prev size)
      else some (insert_new_block h w p size)

/-- `Skiplist::resize(old_size, new_size, pointer_to_resize)`.  The const
locals `old_skip_list`, `expanding` and `size_diff` of the C++ are inlined. -/
def SLresize (h : Heap) (H old_size new_size p fuel : Nat) (junk : FreeEntry) :
    Option (Nat × Heap) :=
  (walkPast h p fuel (getWalker h H (which_skiplist_by_size old_size))).bind fun w =>
    if w.curr ≠ 0 ∧ p + old_size = w.curr then
      some (p, (resize_allocated_block h w p old_size new_size junk).1)
    else if old_size < new_size then some (0, h)
    else
      if old_size - new_size < MIN_ALLOC_SIZE then some (p, h)
      else some (p, insert_new_block h w (p + new_size) (old_size - new_size))

/-- `_malloc(req_size)`: note `p[0] = size` is executed with no null check on
the result of `Skiplist::malloc` (a null result is address 0, and the
returned "user pointer" is then `0 + MALLOC_HEADER_SIZE`). -/
def _malloc (h : Heap) (H req_size fuel : Nat) (junk : FreeEntry) :
    Option (Nat × Heap) :=
  if req_size = 0 then some (0, h)
  else
    (SLmalloc h H (ROUND_UP_TO_ALIGN req_size + MALLOC_HEADER_SIZE) fuel junk).map
      fun r =>
        (r.1 + MALLOC_HEADER_SIZE,
         wr r.2 r.1 (ROUND_UP_TO_ALIGN req_size + MALLOC_HEADER_SIZE))

/-- `_free(p)`: no-op on null or unaligned pointers, otherwise recover the
stored total size from the header word and release the block. -/
def _free (h : Heap) (H p fuel : Nat) : Option Heap :=
  if UNALIGNED p ∨ p = 0 then some h
  else
    let q := usub p MALLOC_HEADER_SIZE
    SLfree h H (rd h q) q fuel

/-- The fallback arm of `_realloc` once both the in-place resize and the
fresh `Skiplist::malloc` have run: write the size header, copy
`min(new, old) - MALLOC_HEADER_SIZE` payload bytes word by word from the old
user pointer `p`, free the old block, and return the new user pointer. -/
def reallocFallback (h₂ : Heap) (H old_size new_size p ret₂ fuel : Nat) :
    Option (Nat × Heap) :=
  (SLfree
      (goR (fun i h => wr h (ret₂ + MALLOC_HEADER_SIZE + 4 * i) (rd h (p + 4 * i)))
        (usub (min new_size old_size) MALLOC_HEADER_SIZE / 4) 0
        (wr h₂ ret₂ new_size))
      H old_size (usub p MALLOC_HEADER_SIZE) fuel).map
    fun h₅ => (ret₂ + MALLOC_HEADER_SIZE, h₅)

/-- `_realloc(req_size, p)`.  The const locals `q`, `old_size` and
`new_size` of the C++ are inlined (all are pure reads of the entry heap). -/
def _realloc (h : Heap) (H req_size p fuel : Nat) (junk : FreeEntry) :
    Option (Nat × Heap) :=
  if p = 0 then _malloc h H req_size fuel junk
  else if req_size = 0 then (_free h H p fuel).map fun h => (0, h)
  else if UNALIGNED p then some (p, h)
  else
    if ROUND_UP_TO_ALIGN req_size + MALLOC_HEADER_SIZE
        = rd h (usub p MALLOC_HEADER_SIZE) then some (p, h)
    else
      (SLresize h H (rd h (usub p MALLOC_HEADER_SIZE))
          (ROUND_UP_TO_ALIGN req_size + MALLOC_HEADER_SIZE)
          (usub p MALLOC_HEADER_SIZE) fuel junk).bind fun r =>
        if r.1 = 0 then
          (SLmalloc r.2 H (ROUND_UP_TO_ALIGN req_size + MALLOC_HEADER_SIZE)
              fuel junk).bind fun r₂ =>
            if r₂.1 = 0 then some (0, r₂.2)
            else
              reallocFallback r₂.2 H (rd h (usub p MALLOC_HEADER_SIZE))
                (ROUND_UP_TO_ALIGN req_size + MALLOC_HEADER_SIZE) p r₂.1 fuel
        else some r

/-- The list of `(address, size)` pairs reached from the word at address
`headSlot` by following `next[lvl]` pointers, with fuel. -/
def chainAt (h : Heap) (lvl : Nat) : Nat → Nat → List (Nat × Nat)
  | 0, _ => []
  | fuel + 1, a =>
    if a = 0 then [] else (a, rd h a) :: chainAt h lvl fuel (rd h (a + 4 + 4 * lvl))

/-- The level-`lvl` free list starting from `heads[lvl]` (heads array at `H`). -/
def freeListAt (h : Heap) (H lvl fuel : Nat) : List (Nat × Nat) :=
  chainAt h lvl fuel (rd h (H + 4 * lvl))

/-- The address-ordered free-block list (level 0 carries every free block). -/
def freeList0 (h : Heap) (H fuel : Nat) : List (Nat × Nat) :=
  freeListAt h H 0 fuel

/-- `tiles blocks pos endp` checks that the `(address, size)` blocks exactly
tile the byte range `[pos, endp)` with no gap and no overlap. -/
def tiles : List (Nat × Nat) → Nat → Nat → Bool
  | [], pos, endp => pos == endp
  | (a, s) :: rest, pos, endp => a == pos && tiles rest (pos + s) endp

/-- All-zero junk for stack temporaries in runs whose result does not depend
on the indeterminate slots. -/
def junk0 : FreeEntry := ⟨0, 0, 0, 0, 0⟩

/-- A heap whose free lists are all empty (every word zero): the exhausted
arena for the `_malloc` null-path. -/
def hEmpty : Heap := ⟨fun _ => 0⟩

/-- Heads at 100.  Live block of total size 12 at 1000 (header word 12), and
an adjacent free block of size 8 at 1012 on list 0 only. -/
def hC2 : Heap :=
  ⟨fun a =>
    if a = 1000 then 12
    else if a = 1012 then 8
    else if a = 100 then 1012
    else 0⟩

/-- Heads at 100.  Live block of total size 24 at 1000, adjacent free block
of size 16 at 1024 (level 1, so on lists 0 and 1); arena `[1000, 1040)`. -/
def hC4 : Heap :=
  ⟨fun a =>
    if a = 1000 then 24
    else if a = 1024 then 16
    else if a = 100 then 1024
    else if a = 104 then 1024
    else 0⟩

/-- The walker state `Skiplist::resize` reaches on `hC4` just before calling
`resize_allocated_block`: level-1 walk, `curr` at the free neighbour 1024,
links still at the heads. -/
def wC4 : Walker := ⟨1, 1024, ⟨100, 104, 108, 112⟩⟩

/-- Heads at 100.  Level-1 list: 2000 → 3040; level-0 list: 2000 → 3000 →
3016 → 3040; levels 2 and 3 hold only 3040.  Blocks: 2000 (size 16),
3000 and 3016 (size 8 each), 3040 (size 1024). -/
def hC5 : Heap :=
  ⟨fun a =>
    if a = 100 then 2000
    else if a = 104 then 2000
    else if a = 108 then 3040
    else if a = 112 then 3040
    else if a = 2000 then 16
    else if a = 2004 then 3000
    else if a = 2008 then 3040
    else if a = 3000 then 8
    else if a = 3004 then 3016
    else if a = 3016 then 8
    else if a = 3020 then 3040
    else if a = 3040 then 1024
    else 0⟩

/-- A free entry of size 16 at 200 with `next[0] = 5` and `next[1] = 7`. -/
def hC6 : Heap :=
  ⟨fun a =>
    if a = 200 then 16
    else if a = 204 then 5
    else if a = 208 then 7
    else 0⟩

/-- Distinctive junk used to observe which slots `copy_from` fails to copy. -/
def junkC6 : FreeEntry := ⟨0, 99, 99, 99, 99⟩

/-- Heads at 100.  Arena `[2000, 2032)`: free block 2000 (size 8, level 0),
live block 2008 (total size 8), free block 2016 (size 16, level 1).
Every invariant of the spec holds here. -/
def hC7 : Heap :=
  ⟨fun a =>
    if a = 100 then 2000
    else if a = 104 then 2016
    else if a = 2000 then 8
    else if a = 2004 then 2016
    else if a = 2008 then 8
    else if a = 2016 then 16
    else 0⟩

/-- A single free block of size 32 at 1000 (level 1), used to witness the
split path of `allocate_current`. -/
def hW8 : Heap :=
  ⟨fun a =>
    if a = 1000 then 32
    else if a = 100 then 1000
    else if a = 104 then 1000
    else 0⟩

/-- A walker sitting on the block at 1000 with links at the heads. -/
def wW8 : Walker := ⟨1, 1000, ⟨100, 104, 108, 112⟩⟩

/-- Heads at 100, all null.  A live block header (total size 16) at 2000;
its user pointer is 2008.  Any `realloc` expansion must take the fallback
path and the fallback `malloc` fails. -/
def hW9 : Heap := ⟨fun a => if a = 2000 then 16 else 0⟩

/-! ### Basic lemmas about the memory model and the classifier -/

/-- Reading back a written address yields the written value. -/
theorem rd_wr_self (h : Heap) (a v : Nat) : rd (wr h a v) a = v := by
  simp [rd, wr]

/-- Reading elsewhere is unaffected by a write. -/
theorem rd_wr_of_ne (h : Heap) {a b : Nat} (hne : b ≠ a) (v : Nat) :
    rd (wr h a v) b = rd h b := by
  simp [rd, wr, hne]

/-- Read over write, as a conditional. -/
theorem rd_wr (h : Heap) (a b v : Nat) :
    rd (wr h a v) b = if b = a then v else rd h b := by
  by_cases hb : b = a <;> simp [rd, wr, hb]

/-- The classifier takes only the values 0, 1, 2, 3. -/
theorem which4 (n : Nat) :
    which_skiplist_by_size n = 0 ∨ which_skiplist_by_size n = 1 ∨
    which_skiplist_by_size n = 2 ∨ which_skiplist_by_size n = 3 := by
  unfold which_skiplist_by_size
  split_ifs <;> simp

/-- The classifier is monotone. -/
theorem which_mono {s t : Nat} (hst : s ≤ t) :
    which_skiplist_by_size s ≤ which_skiplist_by_size t := by
  unfold which_skiplist_by_size
  split_ifs <;> omega

/-- Unsigned subtraction agrees with truncated subtraction when it cannot
wrap. -/
theorem usub_of_le {a b : Nat} (hba : b ≤ a) : usub a b = a - b := by
  simp [usub, hba]

/-! ### Claim theorems -/

/-- **C10**: the size-to-level classifier always returns a level strictly
below `NUM_FREE_LISTS = 4`, every loop index bounded by a classifier value
stays below 4, and the classifier is monotone non-decreasing. -/
theorem c10_classifier_bounded_and_monotone (s t : Nat) :
    which_skiplist_by_size s < NUM_FREE_LISTS ∧
    (∀ i, i ≤ which_skiplist_by_size s → i < NUM_FREE_LISTS) ∧
    (s ≤ t → which_skiplist_by_size s ≤ which_skiplist_by_size t) := by
  have hb : which_skiplist_by_size s < NUM_FREE_LISTS := by
    unfold which_skiplist_by_size NUM_FREE_LISTS
    split_ifs <;> omega
  exact ⟨hb, fun i hi => lt_of_le_of_lt hi hb, fun hst => which_mono hst⟩

/-- Witness for C10 at concrete inputs. -/
theorem c10_witness :
    which_skiplist_by_size 64 < NUM_FREE_LISTS ∧
    which_skiplist_by_size 64 ≤ which_skiplist_by_size 1024 :=
  ⟨(c10_classifier_bounded_and_monotone 64 1024).1,
   (c10_classifier_bounded_and_monotone 64 1024).2.2 (by norm_num)⟩

/-- **C1**: on an exhausted arena (all four heads null) `_malloc(4)` does
*not* return null: `Skiplist::malloc` returns null, but `_malloc` then
executes `p[0] = size` through the null pointer (a write of the rounded
size 12 at address 0) and returns `0 + MALLOC_HEADER_SIZE = 8`.  The
`req == 0` half of the claim does hold (last conjunct). -/
theorem c1_malloc_exhausted_not_null :
    rd hEmpty 0 = 0 ∧
    (_malloc hEmpty 100 4 6 junk0).map Prod.fst = some 8 ∧
    ((_malloc hEmpty 100 4 6 junk0).map fun r => rd r.2 0) = some 12 ∧
    (8 : Nat) ≠ 0 ∧
    _malloc hEmpty 100 0 6 junk0 = some (0, hEmpty) :=
  ⟨rfl, rfl, rfl, by omega, rfl⟩

/-- **C2**: a successful in-place `realloc` does *not* return the original
user pointer and does *not* update the header.  On `hC2` the live block at
1000 (user pointer 1008, header 12) grows to `rounded(8) = 16` by absorbing
the whole adjacent free block; `_realloc` returns 1000 — the *block*
address, not the user pointer 1008 — and the header word still reads 12. -/
theorem c2_realloc_inplace_wrong_pointer_and_stale_header :
    (_realloc hC2 100 8 1008 6 junk0).map Prod.fst = some 1000 ∧
    ((_realloc hC2 100 8 1008 6 junk0).map fun r => rd r.2 1000) = some 12 ∧
    ROUND_UP_TO_ALIGN 8 + MALLOC_HEADER_SIZE = 16 ∧
    (1000 : Nat) ≠ 1008 ∧ (12 : Nat) ≠ 16 :=
  ⟨rfl, rfl, rfl, by omega, by omega⟩

/-- **C3**: in an in-place shrink with an adjacent free neighbour the
neighbour's header does move down by `old_size - new_size = 8` (from 1024
to 1016), but its stored size becomes `16 - 8 = 8` instead of growing to
`16 + 8 = 24`: `resize_allocated_block` passes `temp.size - size_diff` to
`copy_and_resize`, losing `2 * size_diff` bytes. -/
theorem c3_shrink_neighbour_shrinks_instead_of_growing :
    ∀ junk : FreeEntry,
      rd hC4 1024 = 16 ∧
      (resize_allocated_block hC4 wC4 1000 24 16 junk).2.curr = 1016 ∧
      rd (resize_allocated_block hC4 wC4 1000 24 16 junk).1 1016 = 8 ∧
      (8 : Nat) ≠ 16 + (24 - 16) :=
  fun _ => ⟨rfl, rfl, rfl, by omega⟩

/-- **C4**: conservation fails after a public operation.  `hC4` tiles the
arena `[1000, 1040)` exactly (live 24 + free 16).  After the shrinking
`_realloc(8, 1008)` the only free block is `(1016, 8)` while the live
header still claims 24: 24 + 8 = 32 ≠ 40 (and even with the intended new
live size 16, 16 + 8 = 24 ≠ 40) — bytes leak and the blocks overlap. -/
theorem c4_conservation_violated_by_shrinking_realloc :
    ∀ junk : FreeEntry,
      tiles [(1000, 24), (1024, 16)] 1000 1040 = true ∧
      (_realloc hC4 100 8 1008 6 junk).map Prod.fst = some 1000 ∧
      ((_realloc hC4 100 8 1008 6 junk).map fun r => freeList0 r.2 100 6) =
        some [(1016, 8)] ∧
      ((_realloc hC4 100 8 1008 6 junk).map fun r => rd r.2 1000) = some 24 ∧
      24 + 8 ≠ 1040 - 1000 ∧ 16 + 8 ≠ 1040 - 1000 :=
  fun _ => ⟨rfl, rfl, rfl, rfl, by omega, by omega⟩

/-- **C5**: after one `move_next` (which calls `advance_links`) on `hC5`,
`curr` has stepped along level 1 from 2000 to 3040, but `links[0]` has
advanced only one slot (to `&2000->next[0]`, address 2004) because
`advance_links` uses `if`, not `while`: `*links[0] = 3000 < 3040`, and even
3000's own successor 3016 is still below `curr`, so `*links[0]` is not the
first level-0 block at address ≥ `curr`. -/
theorem c5_advance_links_lags_behind_curr :
    (move_next hC5 (getWalker hC5 100 1)).curr = 3040 ∧
    (move_next hC5 (getWalker hC5 100 1)).links.get 0 = 2004 ∧
    rd hC5 2004 = 3000 ∧ (3000 : Nat) < 3040 ∧
    which_skiplist_by_size (rd hC5 3000) = 0 ∧
    rd hC5 (3000 + 4) = 3016 ∧ (3016 : Nat) < 3040 :=
  ⟨rfl, rfl, rfl, by omega, rfl, rfl, by omega⟩

/-- **C6**: the snapshot taken by the `free_entry` copy constructor does
*not* preserve all occupied forward pointers.  For the level-1 entry at 200
(`size 16`, occupied slots `next[0] = 5` and `next[1] = 7`), the snapshot
copies only `next[0]`; slot `next[1]` keeps the destination's prior
(indeterminate) contents, here 99 ≠ 7: `copy_from` loops
`i < fe.skiplist()` instead of `i <= fe.skiplist()`. -/
theorem c6_snapshot_loses_top_occupied_pointer :
    (tempOf hC6 200 junkC6).size = 16 ∧
    which_skiplist_by_size 16 = 1 ∧
    (tempOf hC6 200 junkC6).getNext 0 = 5 ∧
    (tempOf hC6 200 junkC6).getNext 1 = 99 ∧
    rd hC6 (200 + 4 + 4 * 1) = 7 ∧ (99 : Nat) ≠ 7 :=
  ⟨rfl, rfl, rfl, rfl, rfl, by omega⟩

/-- **C7**: `free(malloc(n))` does not restore the free-block set.  `hC7`
satisfies the invariants (level lists consistent, arena `[2000, 2032)`
exactly tiled).  `_malloc(8)` succeeds (user pointer 2024, taking the whole
level-1 block 2016), but because the walker's `links[0]` still points at
`heads[0]` while `curr` started at `heads[1] = 2016`,
`allocate_entire_block` rewrites `heads[0]` and silently drops the level-0
block 2000 from list 0.  The immediate `_free` reinserts only 2016: the
free set afterwards is `[(2016, 16)]`, not the original
`[(2000, 8), (2016, 16)]`.  This run takes the whole-block path, so no stack
temporary is ever constructed and the `junk` snapshot argument is dead;
`junk0` is passed. -/
theorem c7_free_malloc_loses_a_free_block :
    freeList0 hC7 100 9 = [(2000, 8), (2016, 16)] ∧
    freeListAt hC7 100 1 9 = [(2016, 16)] ∧
    tiles [(2000, 8), (2008, 8), (2016, 16)] 2000 2032 = true ∧
    (_malloc hC7 100 8 9 junk0).map Prod.fst = some 2024 ∧
    ((_malloc hC7 100 8 9 junk0).bind fun r =>
      (_free r.2 100 r.1 9).map fun h2 => freeList0 h2 100 9) =
      some [(2016, 16)] ∧
    ([(2016, 16)] : List (Nat × Nat)) ≠ [(2000, 8), (2016, 16)] :=
  ⟨rfl, rfl, rfl, rfl, rfl, by simp⟩

/-! ### `_realloc` null-fallback analysis (C9) -/

/-- `Skiplist::allocate_current` always returns the walker's current block. -/
theorem allocate_current_fst (h : Heap) (w : Walker) (s : Nat) (junk : FreeEntry) :
    (allocate_current h w s junk).1 = w.curr := by
  unfold allocate_current
  split <;> rfl

/-- If the `Skiplist::malloc` search loop terminates with a null result, the
heap has not been touched: the walk only reads memory. -/
theorem mallocLoop_null (size : Nat) (junk : FreeEntry) (h : Heap) :
    ∀ (fuel : Nat) (w : Walker) (h' : Heap),
      mallocLoop size junk h fuel w = some (0, h') → h' = h := by
  intro fuel
  induction fuel with
  | zero => intro w h' hrun; simp [mallocLoop] at hrun
  | succ n ih =>
    intro w h' hrun
    unfold mallocLoop at hrun
    by_cases hc : w.curr = 0
    · rw [if_pos hc, Option.some.injEq, Prod.mk.injEq] at hrun
      exact hrun.2.symm
    · rw [if_neg hc] at hrun
      by_cases hf : size ≤ rd h w.curr
      · rw [if_pos hf, Option.some.injEq] at hrun
        have hfst := congrArg Prod.fst hrun
        rw [allocate_current_fst] at hfst
        exact absurd hfst hc
      · rw [if_neg hf] at hrun
        exact ih _ _ hrun

/-- `Skiplist::malloc` returning null leaves the heap unchanged. -/
theorem SLmalloc_null (h : Heap) (H size fuel : Nat) (junk : FreeEntry) (h' : Heap)
    (hrun : SLmalloc h H size fuel junk = some (0, h')) : h' = h :=
  mallocLoop_null size junk h fuel _ h' hrun

/-- `Skiplist::resize` returning null (which happens only on the
expanding-and-not-adjacent path, given a nonnull block pointer) leaves the
heap unchanged. -/
theorem SLresize_null (h : Heap) (H old_size new_size p fuel : Nat) (junk : FreeEntry)
    (h' : Heap) (hp : p ≠ 0)
    (hrun : SLresize h H old_size new_size p fuel junk = some (0, h')) : h' = h := by
  unfold SLresize at hrun
  cases hw : walkPast h p fuel (getWalker h H (which_skiplist_by_size old_size)) with
  | none => rw [hw, Option.none_bind] at hrun; exact absurd hrun (by simp)
  | some w =>
    rw [hw, Option.some_bind] at hrun
    by_cases hadj : w.curr ≠ 0 ∧ p + old_size = w.curr
    · rw [if_pos hadj, Option.some.injEq, Prod.mk.injEq] at hrun
      exact absurd hrun.1 hp
    · rw [if_neg hadj] at hrun
      by_cases hexp : old_size < new_size
      · rw [if_pos hexp, Option.some.injEq, Prod.mk.injEq] at hrun
        exact hrun.2.symm
      · rw [if_neg hexp] at hrun
        by_cases hdiff : old_size - new_size < MIN_ALLOC_SIZE
        · rw [if_pos hdiff, Option.some.injEq, Prod.mk.injEq] at hrun
          exact absurd hrun.1 hp
        · rw [if_neg hdiff, Option.some.injEq, Prod.mk.injEq] at hrun
          exact absurd hrun.1 hp

/-- **C9**: for a live allocation (`p` a nonnull aligned user pointer past
the header) and `req_size ≠ 0`, whenever `_realloc` returns null the heap is
the entry heap, byte for byte: the in-place refusal mutates nothing, the
failed fallback `Skiplist::malloc` mutates nothing, and `_realloc` returns
null only in that refused-then-exhausted case — header, payload and
free-block index of the old allocation are untouched. -/
theorem c9_realloc_null_fallback_preserves_heap
    (h : Heap) (H req_size p fuel : Nat) (junk : FreeEntry) (h' : Heap)
    (hreq : req_size ≠ 0) (hp : MALLOC_HEADER_SIZE < p) (halign : UNALIGNED p = false)
    (hrun : _realloc h H req_size p fuel junk = some (0, h')) : h' = h := by
  have hp0 : ¬ p = 0 := by unfold MALLOC_HEADER_SIZE at hp; omega
  unfold _realloc at hrun
  rw [if_neg hp0, if_neg hreq, halign] at hrun
  rw [if_neg (by simp)] at hrun
  have hq : usub p MALLOC_HEADER_SIZE ≠ 0 := by
    rw [usub_of_le (le_of_lt hp)]
    unfold MALLOC_HEADER_SIZE at hp ⊢
    omega
  by_cases heq : ROUND_UP_TO_ALIGN req_size + MALLOC_HEADER_SIZE
      = rd h (usub p MALLOC_HEADER_SIZE)
  · rw [if_pos heq, Option.some.injEq, Prod.mk.injEq] at hrun
    exact absurd hrun.1 hp0
  · rw [if_neg heq] at hrun
    cases hres : SLresize h H (rd h (usub p MALLOC_HEADER_SIZE))
        (ROUND_UP_TO_ALIGN req_size + MALLOC_HEADER_SIZE) (usub p MALLOC_HEADER_SIZE)
        fuel junk with
    | none => rw [hres, Option.none_bind] at hrun; exact absurd hrun (by simp)
    | some r =>
      rw [hres, Option.some_bind] at hrun
      by_cases hret : r.1 = 0
      · rw [if_pos hret] at hrun
        have hres0 : SLresize h H (rd h (usub p MALLOC_HEADER_SIZE))
            (ROUND_UP_TO_ALIGN req_size + MALLOC_HEADER_SIZE) (usub p MALLOC_HEADER_SIZE)
            fuel junk = some (0, r.2) := by
          rw [hres, ← hret]
        have hh₁ : r.2 = h := SLresize_null h H _ _ _ fuel junk r.2 hq hres0
        cases hm : SLmalloc r.2 H (ROUND_UP_TO_ALIGN req_size + MALLOC_HEADER_SIZE)
            fuel junk with
        | none => rw [hm, Option.none_bind] at hrun; exact absurd hrun (by simp)
        | some r₂ =>
          rw [hm, Option.some_bind] at hrun
          by_cases hret2 : r₂.1 = 0
          · rw [if_pos hret2] at hrun
            rw [Option.some.injEq, Prod.mk.injEq] at hrun
            have hm0 : SLmalloc r.2 H (ROUND_UP_TO_ALIGN req_size + MALLOC_HEADER_SIZE)
                fuel junk = some (0, r₂.2) := by rw [hm, ← hret2]
            rw [← hrun.2, SLmalloc_null r.2 H _ fuel junk r₂.2 hm0, hh₁]
          · rw [if_neg hret2] at hrun
            unfold reallocFallback at hrun
            rw [Option.map_eq_some'] at hrun
            obtain ⟨h₅, -, habs⟩ := hrun
            rw [Prod.mk.injEq] at habs
            have : r₂.1 + MALLOC_HEADER_SIZE = 0 := habs.1
            unfold MALLOC_HEADER_SIZE at this
            omega
      · rw [if_neg hret, Option.some.injEq] at hrun
        have hfst := congrArg Prod.fst hrun
        exact absurd hfst hret

/-- Witness for C9: on `hW9` the expansion `_realloc(100, 2008)` is refused
in place (no adjacent free neighbour) and the fallback `malloc` finds no
block; the result is null and the heap is exactly `hW9`. -/
theorem c9_witness :
    _realloc hW9 100 100 2008 6 junk0 = some (0, hW9) ∧ hW9 = hW9 :=
  ⟨rfl,
   c9_realloc_null_fallback_preserves_heap hW9 100 100 2008 6 junk0 hW9
     (by omega) (by norm_num [MALLOC_HEADER_SIZE]) (by rfl) (by rfl)⟩

/-! ### Loop-write lemmas for `allocate_current` (C8) -/

/-- Frame rule for `goR`: a loop whose iteration `i` writes only addresses
satisfying `W i` preserves every read outside `W`. -/
theorem goR_frame (body : Nat → Heap → Heap) (W : Nat → Nat → Prop)
    (hbody : ∀ i h' a, ¬ W i a → rd (body i h') a = rd h' a) :
    ∀ (n i0 : Nat) (h : Heap) (a : Nat),
      (∀ j, i0 ≤ j → j < i0 + n → ¬ W j a) → rd (goR body n i0 h) a = rd h a := by
  intro n
  induction n with
  | zero => intro i0 h a _; rfl
  | succ m ih =>
    intro i0 h a hW
    show rd (goR body m (i0 + 1) (body i0 h)) a = rd h a
    rw [ih (i0 + 1) (body i0 h) a (fun j hj hj2 => hW j (by omega) (by omega)),
      hbody i0 h a (hW i0 (le_refl _) (by omega))]

/-- The unlink loop of `allocate_entire_block`: with pairwise-distinct link
slots all strictly below `c`, iteration `k` stores the original word at
`c + 4 + 4*k` (i.e. `curr->next[k]`) into slot `L k`, and no later
iteration disturbs it. -/
theorem goR_aeb_get (L : Nat → Nat) (c : Nat)
    (hinj : ∀ i j, i < 4 → j < 4 → i ≠ j → L i ≠ L j)
    (hlt : ∀ j, j < 4 → L j < c) :
    ∀ (n i0 : Nat), i0 + n ≤ 4 → ∀ (h : Heap) (k : Nat), i0 ≤ k → k < i0 + n →
      rd (goR (fun i h' => wr h' (L i) (rd h' (c + 4 + 4 * i))) n i0 h) (L k)
        = rd h (c + 4 + 4 * k) := by
  intro n
  induction n with
  | zero => intro i0 _ h k hk1 hk2; omega
  | succ m ih =>
    intro i0 hle h k hk1 hk2
    show rd (goR _ m (i0 + 1) (wr h (L i0) (rd h (c + 4 + 4 * i0)))) (L k)
      = rd h (c + 4 + 4 * k)
    by_cases hki : k = i0
    · subst hki
      rw [goR_frame _ (fun j a => a = L j)
          (fun i h' a ha => rd_wr_of_ne h' ha _)
          m (k + 1) _ (L k)
          (fun j hj hj2 => hinj k j (by omega) (by omega) (by omega))]
      exact rd_wr_self ..
    · rw [ih (i0 + 1) (by omega) _ k (by omega) (by omega),
        rd_wr_of_ne h (by have := hlt i0 (by omega); omega) _]

/-- The splice loop of `copy_and_resize`: iteration `k` writes `dest` into
link slot `L k` (after filling `dest->next[k]`), and the value survives the
remaining iterations. -/
theorem goR_car_get (L : Nat → Nat) (d : Nat) (g : Nat → Nat)
    (hinj : ∀ i j, i < 4 → j < 4 → i ≠ j → L i ≠ L j)
    (hlt : ∀ j, j < 4 → L j < d) :
    ∀ (n i0 : Nat), i0 + n ≤ 4 → ∀ (h : Heap) (k : Nat), i0 ≤ k → k < i0 + n →
      rd (goR (fun i h' => wr (wr h' (d + 4 + 4 * i) (g i)) (L i) d) n i0 h) (L k)
        = d := by
  intro n
  induction n with
  | zero => intro i0 _ h k hk1 hk2; omega
  | succ m ih =>
    intro i0 hle h k hk1 hk2
    show rd (goR _ m (i0 + 1) (wr (wr h (d + 4 + 4 * i0) (g i0)) (L i0) d)) (L k) = d
    by_cases hki : k = i0
    · subst hki
      rw [goR_frame _ (fun j a => a = L j ∨ a = d + 4 + 4 * j)
          (fun i h' a ha =>
            (rd_wr_of_ne _ (fun hx => ha (Or.inl hx)) _).trans
              (rd_wr_of_ne h' (fun hx => ha (Or.inr hx)) _))
          m (k + 1) _ (L k)
          (fun j hj hj2 hor => by
            rcases hor with hx | hx
            · exact hinj k j (by omega) (by omega) (by omega) hx
            · have := hlt k (by omega); omega)]
      exact rd_wr_self ..
    · exact ih (i0 + 1) (by omega) _ k (by omega) (by omega)

/-- A level-bounded `for` loop whose guard re-reads the entry's size behaves
like a plain counted loop when no iteration writes the size word at `c`. -/
theorem forWhile_levels (c : Nat) (body : Nat → Heap → Heap)
    (hpres : ∀ i, i < 4 → ∀ h', rd (body i h') c = rd h' c) (h : Heap) :
    forWhile [0, 1, 2, 3]
      (fun i h' => decide (i ≤ which_skiplist_by_size (rd h' c))) body h
      = goR body (which_skiplist_by_size (rd h c) + 1) 0 h := by
  rcases which4 (rd h c) with hK | hK | hK | hK <;>
    simp [forWhile, goR, hpres 0 (by omega), hpres 1 (by omega), hpres 2 (by omega),
      hpres 3 (by omega), hK]

/-- The classifier never exceeds level 3. -/
theorem which_le_three (n : Nat) : which_skiplist_by_size n ≤ 3 := by
  rcases which4 n with hx | hx | hx | hx <;> omega

/-- `setNext` does not change the entry's size. -/
theorem setNext_size (fe : FreeEntry) (i v : Nat) : (fe.setNext i v).size = fe.size := by
  rcases i with _ | _ | _ | _ | i <;> rfl

/-- The copy loop of `copy_from` does not change the entry's size. -/
theorem copyNexts_size (src : FreeEntry) :
    ∀ (n i : Nat) (d : FreeEntry), (copyNexts src n i d).size = d.size := by
  intro n
  induction n with
  | zero => intro i d; rfl
  | succ m ih => intro i d; rw [copyNexts, ih, setNext_size]

/-- The snapshot's size always equals the in-memory entry's size word. -/
theorem tempOf_size (h : Heap) (p : Nat) (junk : FreeEntry) :
    (tempOf h p junk).size = rd h p := by
  unfold tempOf copy_from
  rw [copyNexts_size]
  rfl

/-- Shrinking `copy_and_resize` (the split and shrink-resize paths): the new
header at `dest` holds `new_size`, and every link slot up to the new level
is redirected to `dest`, given distinct link slots strictly below `dest`. -/
theorem copy_and_resize_shrunk (h : Heap) (w : Walker) (d : Nat) (src : FreeEntry)
    (nsz : Nat) (hne : nsz ≠ src.size) (hnex : ¬ src.size < nsz)
    (hlt : ∀ j, j < 4 → w.links.get j < d)
    (hinj : ∀ i j, i < 4 → j < 4 → i ≠ j → w.links.get i ≠ w.links.get j) :
    rd (copy_and_resize h w d src nsz) d = nsz ∧
    ∀ k, k ≤ which_skiplist_by_size nsz →
      rd (copy_and_resize h w d src nsz) (w.links.get k) = d := by
  unfold copy_and_resize
  rw [if_neg hne, if_neg hnex, rd_wr_self]
  unfold forRange
  have hd4 : ∀ j, j < 4 → w.links.get j ≠ d := fun j hj => by
    have := hlt j hj; omega
  have hn3 : which_skiplist_by_size nsz ≤ 3 := which_le_three nsz
  have hs3 : src.skiplist ≤ 3 := which_le_three src.size
  constructor
  · rw [goR_frame _ (fun j a => a = w.links.get j)
        (fun i h' a ha => rd_wr_of_ne h' ha _)
        (src.skiplist + 1 - (which_skiplist_by_size nsz + 1))
        (which_skiplist_by_size nsz + 1) _ d
        (fun j hj hj2 hx => hd4 j (by omega) hx.symm),
      goR_frame _ (fun j a => a = w.links.get j ∨ a = d + 4 + 4 * j)
        (fun i h' a ha =>
          (rd_wr_of_ne _ (fun hx => ha (Or.inl hx)) _).trans
            (rd_wr_of_ne h' (fun hx => ha (Or.inr hx)) _))
        (which_skiplist_by_size nsz + 1 - 0) 0 _ d
        (fun j hj hj2 hor => by
          rcases hor with hx | hx
          · exact hd4 j (by omega) hx.symm
          · omega)]
    exact rd_wr_self ..
  · intro k hk
    rw [goR_frame _ (fun j a => a = w.links.get j)
        (fun i h' a ha => rd_wr_of_ne h' ha _)
        (src.skiplist + 1 - (which_skiplist_by_size nsz + 1))
        (which_skiplist_by_size nsz + 1) _ (w.links.get k)
        (fun j hj hj2 hx => hinj k j (by omega) (by omega) (by omega) hx)]
    exact goR_car_get (fun j => w.links.get j) d (fun i => src.getNext i) hinj hlt
      (which_skiplist_by_size nsz + 1 - 0) 0 (by omega) _ k (by omega) (by omega)

/-- **C8**: `allocate_current` on a walker whose link slots are pairwise
distinct and strictly below the chosen block `b = curr`: the caller always
receives the address of `b`; if `b.size < size + MIN_ALLOC_SIZE` the whole
block is consumed (every link slot up to `b`'s level is redirected to the
corresponding `b->next[i]`, unlinking `b` from all its lists); otherwise
the block is split — a new trailing free block is created at `b + size`
whose header reads `b.size - size`, and it is threaded into every list up
to its level through the link slots. -/
theorem c8_allocate_current_whole_or_split
    (h : Heap) (w : Walker) (s : Nat) (junk : FreeEntry)
    (hs : 0 < s)
    (hl : ∀ i, i < 4 → w.links.get i < w.curr)
    (hinj : ∀ i j, i < 4 → j < 4 → i ≠ j → w.links.get i ≠ w.links.get j) :
    (allocate_current h w s junk).1 = w.curr ∧
    (rd h w.curr < s + MIN_ALLOC_SIZE →
      ∀ i, i ≤ which_skiplist_by_size (rd h w.curr) →
        rd (allocate_current h w s junk).2 (w.links.get i)
          = rd h (w.curr + 4 + 4 * i)) ∧
    (¬ rd h w.curr < s + MIN_ALLOC_SIZE →
      rd (allocate_current h w s junk).2 (w.curr + s) = rd h w.curr - s ∧
      ∀ i, i ≤ which_skiplist_by_size (rd h w.curr - s) →
        rd (allocate_current h w s junk).2 (w.links.get i) = w.curr + s) := by
  refine ⟨allocate_current_fst h w s junk, ?_, ?_⟩
  · intro hcase i hi
    unfold allocate_current
    rw [if_pos hcase]
    show rd (allocate_entire_block h w) (w.links.get i) = rd h (w.curr + 4 + 4 * i)
    unfold allocate_entire_block
    rw [forWhile_levels w.curr _
        (fun i hi4 h' => rd_wr_of_ne h' (by have := hl i hi4; omega) _) h]
    have h3 := which_le_three (rd h w.curr)
    exact goR_aeb_get (fun j => w.links.get j) w.curr hinj hl
      (which_skiplist_by_size (rd h w.curr) + 1) 0 (by omega) h i (by omega) (by omega)
  · intro hcase
    unfold allocate_current
    rw [if_neg hcase]
    have hT : (tempOf h w.curr junk).size = rd h w.curr := tempOf_size h w.curr junk
    have hMIN : MIN_ALLOC_SIZE = 8 := rfl
    have husub : usub (tempOf h w.curr junk).size s = rd h w.curr - s := by
      rw [hT, usub_of_le (by omega)]
    show rd (copy_and_resize h w (w.curr + s) (tempOf h w.curr junk)
        (usub (tempOf h w.curr junk).size s)) (w.curr + s) = rd h w.curr - s ∧
      ∀ i, i ≤ which_skiplist_by_size (rd h w.curr - s) →
        rd (copy_and_resize h w (w.curr + s) (tempOf h w.curr junk)
          (usub (tempOf h w.curr junk).size s)) (w.links.get i) = w.curr + s
    rw [husub]
    exact copy_and_resize_shrunk h w (w.curr + s) (tempOf h w.curr junk)
      (rd h w.curr - s) (by rw [hT]; omega) (by rw [hT]; omega)
      (fun j hj => by have := hl j hj; omega) hinj

/-- Witness for C8: on `hW8` (a single free block of size 32 at 1000) an
allocation of 16 takes the split path: the caller receives 1000, the new
trailing free header at 1016 reads 16, and link slots 0 and 1 point at
1016. -/
theorem c8_witness :
    (allocate_current hW8 wW8 16 junk0).1 = wW8.curr ∧
    (rd hW8 wW8.curr < 16 + MIN_ALLOC_SIZE →
      ∀ i, i ≤ which_skiplist_by_size (rd hW8 wW8.curr) →
        rd (allocate_current hW8 wW8 16 junk0).2 (wW8.links.get i)
          = rd hW8 (wW8.curr + 4 + 4 * i)) ∧
    (¬ rd hW8 wW8.curr < 16 + MIN_ALLOC_SIZE →
      rd (allocate_current hW8 wW8 16 junk0).2 (wW8.curr + 16) = rd hW8 wW8.curr - 16 ∧
      ∀ i, i ≤ which_skiplist_by_size (rd hW8 wW8.curr - 16) →
        rd (allocate_current hW8 wW8 16 junk0).2 (wW8.links.get i) = wW8.curr + 16) :=
  c8_allocate_current_whole_or_split hW8 wW8 16 junk0 (by omega)
    (by decide)
    (by intro i j hi hj hne; interval_cases i <;> interval_cases j <;> first | omega | decide)
